import Mathlib

/-!
Shallow embedding of `accountant_tool` (src/main.rs) and verification of the
specification's claims about it.

Modelling conventions:
* `f64` values are modelled as exact rationals (`ℚ`); the source performs only
  `+`, `-`, `*` and comparisons on them.
* `u8`/`u32`/`u128` are modelled as `Nat` (as `ℚ` after an `as f64` cast).
* The per-year ledger file is modelled as `Option (List Invoice)` (`none` when
  the file does not exist) together with an explicit trace of file-system
  events, so that claims about the order of I/O and validation are statable.
* Panics in `Invoice::new` are modelled as `Except` errors.
-/

namespace Accountant

/-- Mirror of the Rust struct `Invoice` (main.rs lines 9-21). -/
structure Invoice where
  name : String
  date : Nat
  days_worked : Nat
  daily_rate : ℚ
  currency : String
  gross_profit : ℚ
  net_profit : ℚ
  government_tax : ℚ
  social_contribution_tax : ℚ
  total_tax : ℚ
deriving DecidableEq

/-- Mirror of the Rust struct `TaxBucket` (main.rs lines 23-27): `to` is the
optional upper bound (`None` = unbounded top bracket), `perc` the rate. -/
structure TaxBucket where
  «to» : Option ℚ
  perc : ℚ
deriving DecidableEq

/-- Mirror of `Invoice::tax_buckets` (main.rs lines 110-129). -/
def tax_buckets : List TaxBucket :=
  [⟨some 13870, 0.25⟩, ⟨some 24480, 0.40⟩, ⟨some 42370, 0.45⟩, ⟨none, 0.5⟩]

/-- The loop of `Invoice::appliable_tax_buckets` (main.rs lines 137-153):
`range0`/`range1` are the components of `gross_profit_range`, fixed before the
loop; the second argument is the mutable `gross_profit`.  Pushed allocations
become list conses; the two `return` statements become singleton tails. -/
def appliable_go (range0 range1 : ℚ) : List TaxBucket → ℚ → List (ℚ × ℚ)
  | [], _ => []
  | ⟨none, perc⟩ :: _, gross_profit => [(gross_profit, perc)]
  | ⟨some t, perc⟩ :: bs, gross_profit =>
    if range0 > t then
      appliable_go range0 range1 bs gross_profit
    else if range1 < t then
      [(gross_profit, perc)]
    else
      (t - range1, perc) :: appliable_go range0 range1 bs (gross_profit - (t - range1))

/-- Mirror of `Invoice::appliable_tax_buckets` (main.rs lines 131-155):
`gross_profit_range = (total_gross_profit, total_gross_profit + gross_profit)`
is computed once, before the loop, and never updated. -/
def appliable_tax_buckets (total_gross_profit gross_profit : ℚ) : List (ℚ × ℚ) :=
  appliable_go total_gross_profit (total_gross_profit + gross_profit)
    tax_buckets gross_profit

/-- Loop body of `Invoice::calc_government_tax` (main.rs lines 161-164): the
accumulator is `(profit_after_government_tax, government_tax)`; the running tax
total is updated first and the updated (cumulative) value is subtracted when
accumulating the remainder. -/
def gov_step (acc : ℚ × ℚ) (x : ℚ × ℚ) : ℚ × ℚ :=
  let government_tax := acc.2 + x.1 * x.2
  (acc.1 + (x.1 - government_tax), government_tax)

/-- Mirror of `Invoice::calc_government_tax` (main.rs lines 157-167). -/
def calc_government_tax (appliable : List (ℚ × ℚ)) : ℚ × ℚ :=
  appliable.foldl gov_step (0, 0)

/-- Mirror of `Invoice::calc_social_contribution` (main.rs lines 169-176). -/
def calc_social_contribution (profit_after_government_tax : ℚ) : ℚ × ℚ :=
  let social_contribution := profit_after_government_tax * 0.205
  (profit_after_government_tax - social_contribution, social_contribution)

/-- Mirror of `Invoice::calc_taxes` (main.rs lines 178-188); returns
`(gross_profit, net_profit, government_tax, social_contribution)`. -/
def calc_taxes (days_worked : Nat) (daily_rate : ℚ) (invoices : List Invoice) :
    ℚ × ℚ × ℚ × ℚ :=
  let total_gross_profit : ℚ := (invoices.map Invoice.gross_profit).sum
  let gross_profit : ℚ := (days_worked : ℚ) * daily_rate
  let buckets := appliable_tax_buckets total_gross_profit gross_profit
  let pg := calc_government_tax buckets
  let ns := calc_social_contribution pg.1
  (gross_profit, ns.1, pg.2, ns.2)

/-- File-system events performed on the per-year ledger file. -/
inductive LedgerEvent where
  | createFile
  | openRead
  | appendWrite
deriving DecidableEq

/-- The per-year ledger file: `none` when the file does not exist, `some rows`
when it exists and holds the given parsed invoice data rows. -/
abbrev LedgerState := Option (List Invoice)

/-- Mirror of `Invoice::fetch_invoices` (main.rs lines 68-108): when the file
does not exist it is created with only the header row and the empty list is
returned; otherwise the file is opened and its data rows are read back. -/
def fetch_invoices : LedgerState → LedgerState × List LedgerEvent × List Invoice
  | none => (some [], [LedgerEvent.createFile], [])
  | some rows => (some rows, [LedgerEvent.openRead], rows)

/-- Mirror of `Invoice::write_invoice_to_csv` (main.rs lines 38-66): appends
one data row to the ledger file. -/
def write_invoice_to_csv (invoice : Invoice) :
    LedgerState → LedgerState × List LedgerEvent
  | none => (some [invoice], [LedgerEvent.appendWrite])
  | some rows => (some (rows ++ [invoice]), [LedgerEvent.appendWrite])

/-- The three panics of `Invoice::new` (main.rs lines 196-202), in source
order: duplicate name, zero days worked, zero daily rate. -/
inductive NewError where
  | duplicateName
  | zeroDaysWorked
  | zeroDailyRate
deriving DecidableEq

/-- Mirror of `Invoice::new` (main.rs lines 190-229).  The current timestamp
is passed in as `timestamp_millis`.  Note the source calls `fetch_invoices`
(file I/O) first and validates the arguments only afterwards. -/
def Invoice.new (name : String) (days_worked : Nat) (daily_rate : Option ℚ)
    (currency : Option String) (timestamp_millis : Nat) (s : LedgerState) :
    LedgerState × List LedgerEvent × Except NewError Invoice :=
  let DAILY_RATE : ℚ := 500
  let CURRENCY : String := "EUR"
  let f := fetch_invoices s
  let s1 := f.1
  let events := f.2.1
  let invoices := f.2.2
  if invoices.any (fun invoice => invoice.name == name) then
    (s1, events, Except.error NewError.duplicateName)
  else if days_worked = 0 then
    (s1, events, Except.error NewError.zeroDaysWorked)
  else if daily_rate = some 0 then
    (s1, events, Except.error NewError.zeroDailyRate)
  else
    let daily_rate := daily_rate.getD DAILY_RATE
    let currency := (currency.getD CURRENCY).toUpper
    let t := calc_taxes days_worked daily_rate invoices
    let invoice : Invoice :=
      ⟨name, timestamp_millis, days_worked, daily_rate, currency,
        t.1, t.2.1, t.2.2.1, t.2.2.2, t.2.2.1 + t.2.2.2⟩
    let w := write_invoice_to_csv invoice s1
    (w.1, events ++ w.2, Except.ok invoice)

/-- Spec §4.3: the running government-tax total over a list of allocations,
`a1*r1 + ... + an*rn`. -/
def runningTaxTotal (l : List (ℚ × ℚ)) : ℚ :=
  (l.map fun x => x.1 * x.2).sum

/-- Spec §4.3, stated from the spec's words: the remainder is accumulated by
iterating the allocations in order and adding, at step `i`, the amount minus
the cumulative tax total through step `i` (not the per-step tax). -/
def remainderSpec (l : List (ℚ × ℚ)) : ℚ :=
  ∑ i in Finset.range l.length,
    ((l.getD i (0, 0)).1 - runningTaxTotal (l.take (i + 1)))

/-- A concrete well-formed ledger row (the §8 end-to-end invoice), used to
instantiate ledger-level statements. -/
def sampleInvoice : Invoice :=
  ⟨"acme", 0, 5, 500, "EUR", 2500, 1490.625, 625, 384.375, 1009.375⟩


lemma exists_unbounded_tail {bs : List TaxBucket} {t perc : ℚ}
    (h : ∃ c ∈ (⟨some t, perc⟩ : TaxBucket) :: bs, c.«to» = none) :
    ∃ c ∈ bs, c.«to» = none := by
  rcases h with ⟨c, hc, hcn⟩
  rcases List.mem_cons.mp hc with rfl | hm
  · simp at hcn
  · exact ⟨c, hm, hcn⟩

lemma appliable_go_sum (range0 range1 : ℚ) (bs : List TaxBucket) :
    ∀ gross : ℚ, (∃ b ∈ bs, b.«to» = none) →
      ((appliable_go range0 range1 bs gross).map Prod.fst).sum = gross := by
  induction bs with
  | nil => intro gross h; simp at h
  | cons b bs ih =>
    intro gross h
    obtain ⟨bto, bperc⟩ := b
    cases bto with
    | none => simp [appliable_go]
    | some t =>
      have hbs := exists_unbounded_tail h
      simp only [appliable_go]
      split_ifs with h0 h1
      · exact ih gross hbs
      · simp
      · simp only [List.map_cons, List.sum_cons, ih _ hbs]
        ring

lemma appliable_go_length (range0 range1 : ℚ) (bs : List TaxBucket) :
    ∀ gross : ℚ, (appliable_go range0 range1 bs gross).length ≤ bs.length := by
  induction bs with
  | nil => intro gross; simp [appliable_go]
  | cons b bs ih =>
    intro gross
    obtain ⟨bto, bperc⟩ := b
    cases bto with
    | none => simp [appliable_go]
    | some t =>
      simp only [appliable_go]
      split_ifs with h0 h1
      · exact le_trans (ih gross) (by simp)
      · simp
      · simpa using Nat.succ_le_succ (ih _)

lemma appliable_go_concat (range0 range1 : ℚ) (bs : List TaxBucket) :
    ∀ gross : ℚ, (∃ b ∈ bs, b.«to» = none) →
      ∃ init last, appliable_go range0 range1 bs gross = init ++ [last] := by
  induction bs with
  | nil => intro gross h; simp at h
  | cons b bs ih =>
    intro gross h
    obtain ⟨bto, bperc⟩ := b
    cases bto with
    | none => exact ⟨[], (gross, bperc), by simp [appliable_go]⟩
    | some t =>
      have hbs := exists_unbounded_tail h
      simp only [appliable_go]
      split_ifs with h0 h1
      · exact ih gross hbs
      · exact ⟨[], (gross, bperc), by simp⟩
      · obtain ⟨init, last, hl⟩ := ih (gross - (t - range1)) hbs
        exact ⟨(t - range1, bperc) :: init, last, by simp [hl]⟩

lemma appliable_go_signs (range0 range1 : ℚ) (bs : List TaxBucket) :
    ∀ gross : ℚ, 0 ≤ gross → (∃ b ∈ bs, b.«to» = none) →
      ∃ init last, appliable_go range0 range1 bs gross = init ++ [last] ∧
        0 ≤ last.1 ∧ ∀ x ∈ init, x.1 ≤ 0 := by
  induction bs with
  | nil => intro gross _ h; simp at h
  | cons b bs ih =>
    intro gross hg h
    obtain ⟨bto, bperc⟩ := b
    cases bto with
    | none => exact ⟨[], (gross, bperc), by simp [appliable_go], hg, by simp⟩
    | some t =>
      have hbs := exists_unbounded_tail h
      simp only [appliable_go]
      split_ifs with h0 h1
      · exact ih gross hg hbs
      · exact ⟨[], (gross, bperc), by simp, hg, by simp⟩
      · push_neg at h0 h1
        obtain ⟨init, last, hl, hlast, hinit⟩ :=
          ih (gross - (t - range1)) (by linarith) hbs
        refine ⟨(t - range1, bperc) :: init, last, by simp [hl], hlast, ?_⟩
        intro x hx
        rcases List.mem_cons.mp hx with rfl | hm
        · show t - range1 ≤ 0
          linarith
        · exact hinit x hm

lemma appliable_go_zero (range0 range1 : ℚ) (hr : range1 = range0)
    (bs : List TaxBucket) :
    ∀ gross : ℚ, gross = 0 → ∀ x ∈ appliable_go range0 range1 bs gross, x.1 = 0 := by
  induction bs with
  | nil => intro gross _ x hx; simp [appliable_go] at hx
  | cons b bs ih =>
    intro gross hg x hx
    obtain ⟨bto, bperc⟩ := b
    cases bto with
    | none =>
      simp [appliable_go] at hx
      simp [hx, hg]
    | some t =>
      simp only [appliable_go] at hx
      split_ifs at hx with h0 h1
      · exact ih gross hg x hx
      · simp at hx
        simp [hx, hg]
      · push_neg at h0 h1
        have ht : t = range1 := le_antisymm h1 (by rw [hr]; exact h0)
        rcases List.mem_cons.mp hx with rfl | hm
        · show t - range1 = 0
          rw [ht]; ring
        · exact ih _ (by rw [ht, hg]; ring) x hm

lemma tax_buckets_unbounded : ∃ b ∈ tax_buckets, b.«to» = none :=
  ⟨⟨none, 0.5⟩, by simp [tax_buckets], rfl⟩

lemma appliable_sum (total_gross_profit gross_profit : ℚ) :
    ((appliable_tax_buckets total_gross_profit gross_profit).map Prod.fst).sum
      = gross_profit :=
  appliable_go_sum total_gross_profit (total_gross_profit + gross_profit)
    tax_buckets gross_profit tax_buckets_unbounded


lemma runningTaxTotal_nil : runningTaxTotal [] = 0 := rfl

lemma runningTaxTotal_cons (x : ℚ × ℚ) (l : List (ℚ × ℚ)) :
    runningTaxTotal (x :: l) = x.1 * x.2 + runningTaxTotal l := by
  simp [runningTaxTotal]

lemma gov_foldl (l : List (ℚ × ℚ)) :
    ∀ p t : ℚ, l.foldl gov_step (p, t) =
      (p + ∑ i in Finset.range l.length,
          ((l.getD i (0, 0)).1 - (t + runningTaxTotal (l.take (i + 1)))),
        t + runningTaxTotal l) := by
  induction l with
  | nil => intro p t; simp [runningTaxTotal]
  | cons x xs ih =>
    intro p t
    rw [List.foldl_cons,
      show gov_step (p, t) x = (p + (x.1 - (t + x.1 * x.2)), t + x.1 * x.2) from rfl,
      ih]
    simp only [Prod.mk.injEq]
    constructor
    · simp only [List.length_cons, Finset.sum_range_succ', List.getD_cons_succ,
        List.getD_cons_zero, List.take_succ_cons, runningTaxTotal_cons,
        List.take_zero, runningTaxTotal_nil]
      have hcong : ∀ i ∈ Finset.range xs.length,
          ((xs.getD i (0, 0)).1 - (t + (x.1 * x.2 + runningTaxTotal (xs.take (i + 1)))))
            = ((xs.getD i (0, 0)).1 - (t + x.1 * x.2 + runningTaxTotal (xs.take (i + 1)))) := by
        intro i _; ring
      rw [Finset.sum_congr rfl hcong]
      ring
    · rw [runningTaxTotal_cons]
      ring

lemma new_error_of_precondition (name : String) (days_worked : Nat)
    (daily_rate : Option ℚ) (currency : Option String) (timestamp_millis : Nat)
    (s : LedgerState) (h : days_worked = 0 ∨ daily_rate = some 0) :
    ∃ e, Invoice.new name days_worked daily_rate currency timestamp_millis s
      = ((fetch_invoices s).1, (fetch_invoices s).2.1, Except.error e) := by
  by_cases hdup : ((fetch_invoices s).2.2.any fun invoice => invoice.name == name)
  · exact ⟨NewError.duplicateName, by simp [Invoice.new, hdup]⟩
  · by_cases hd : days_worked = 0
    · exact ⟨NewError.zeroDaysWorked, by simp [Invoice.new, hdup, hd]⟩
    · have hr : daily_rate = some 0 := h.resolve_left hd
      exact ⟨NewError.zeroDailyRate, by simp [Invoice.new, hdup, hd, hr]⟩

lemma fetch_events_no_append (s : LedgerState) :
    LedgerEvent.appendWrite ∉ (fetch_invoices s).2.1 ∧ (fetch_invoices s).2.1 ≠ [] := by
  cases s <;> simp [fetch_invoices]

/-- C1: for every priorCumulativeProfit ≥ 0 and newProfit ≥ 0, the amounts of
the allocations returned by `appliable_tax_buckets` sum to newProfit within
1e-9 tolerance (the sum is in fact exact, for all inputs). -/
theorem alloc_amounts_sum_within_tolerance (total_gross_profit gross_profit : ℚ)
    (h1 : 0 ≤ total_gross_profit) (h2 : 0 ≤ gross_profit) :
    |((appliable_tax_buckets total_gross_profit gross_profit).map Prod.fst).sum
        - gross_profit| ≤ 1 / 1000000000 := by
  rw [appliable_sum, sub_self, abs_zero]
  norm_num

theorem alloc_amounts_sum_within_tolerance_witness :
    (0 : ℚ) ≤ 0 ∧ (0 : ℚ) ≤ 2500 ∧
      |((appliable_tax_buckets 0 2500).map Prod.fst).sum - 2500| ≤ 1 / 1000000000 :=
  ⟨by norm_num, by norm_num,
    alloc_amounts_sum_within_tolerance 0 2500 (by norm_num) (by norm_num)⟩

/-- C2 is false as stated: at priorCumulativeProfit = 0, newProfit = 20000 the
allocator emits the allocation (-6130, 0.25), whose amount is negative. -/
theorem alloc_amount_negative_counterexample :
    (-6130, (0.25 : ℚ)) ∈ appliable_tax_buckets 0 20000 ∧ (-6130 : ℚ) < 0 := by
  constructor
  · norm_num [appliable_tax_buckets, appliable_go, tax_buckets]
  · norm_num

/-- C2 (amended): for priorCumulativeProfit ≥ 0 and newProfit ≥ 0 the returned
sequence ends in an allocation whose amount is ≥ 0, and every allocation
before the last one has amount ≤ 0 (straddle allocations are non-positive). -/
theorem alloc_last_nonneg_init_nonpos (total_gross_profit gross_profit : ℚ)
    (h1 : 0 ≤ total_gross_profit) (h2 : 0 ≤ gross_profit) :
    ∃ init last,
      appliable_tax_buckets total_gross_profit gross_profit = init ++ [last] ∧
        0 ≤ last.1 ∧ ∀ x ∈ init, x.1 ≤ 0 :=
  appliable_go_signs total_gross_profit (total_gross_profit + gross_profit)
    tax_buckets gross_profit h2 tax_buckets_unbounded

theorem alloc_last_nonneg_init_nonpos_witness :
    (0 : ℚ) ≤ 0 ∧ (0 : ℚ) ≤ 20000 ∧
      ∃ init last, appliable_tax_buckets 0 20000 = init ++ [last] ∧
        0 ≤ last.1 ∧ ∀ x ∈ init, x.1 ≤ 0 :=
  ⟨by norm_num, by norm_num,
    alloc_last_nonneg_init_nonpos 0 20000 (by norm_num) (by norm_num)⟩

/-- C3: for the first invoice of the year (no prior invoices) with
daysWorked = 5 and dailyRate = 500, `calc_taxes` returns grossProfit = 2500,
netProfit = 1490.625, governmentTax = 625, socialContributionTax = 384.375. -/
theorem calc_taxes_first_invoice :
    calc_taxes 5 500 [] = (2500, 1490.625, 625, 384.375) := by
  norm_num [calc_taxes, appliable_tax_buckets, appliable_go, tax_buckets,
    calc_government_tax, calc_social_contribution, gov_step]

/-- C4 is false as stated: `Invoice::new` calls `fetch_invoices` before
validating its arguments, so with no ledger file present and daysWorked = 0
the ledger file is created (file I/O) and only then does the operation abort
with the zero-days-worked precondition violation. -/
theorem new_zero_days_io_before_abort :
    LedgerEvent.createFile ∈ (Invoice.new "test" 0 none none 0 none).2.1 ∧
      (Invoice.new "test" 0 none none 0 none).2.2
        = Except.error NewError.zeroDaysWorked := by
  constructor
  · norm_num [Invoice.new, fetch_invoices]
  · norm_num [Invoice.new, fetch_invoices]

/-- C4 (amended): creating an invoice with daysWorked = 0 or dailyRate = 0
fails with a precondition violation before any tax computation and before any
invoice record is appended to the ledger (no append event, ledger rows exactly
as `fetch_invoices` left them) — but after `fetch_invoices` has performed its
file I/O (create, or open and read), which always emits at least one event. -/
theorem new_precondition_aborts_before_append (name : String) (days_worked : Nat)
    (daily_rate : Option ℚ) (currency : Option String) (timestamp_millis : Nat)
    (s : LedgerState) (h : days_worked = 0 ∨ daily_rate = some 0) :
    (∃ e, (Invoice.new name days_worked daily_rate currency timestamp_millis s).2.2
        = Except.error e) ∧
      (Invoice.new name days_worked daily_rate currency timestamp_millis s).1
        = (fetch_invoices s).1 ∧
      (Invoice.new name days_worked daily_rate currency timestamp_millis s).2.1
        = (fetch_invoices s).2.1 ∧
      LedgerEvent.appendWrite ∉
        (Invoice.new name days_worked daily_rate currency timestamp_millis s).2.1 ∧
      (fetch_invoices s).2.1 ≠ [] := by
  obtain ⟨e, he⟩ :=
    new_error_of_precondition name days_worked daily_rate currency timestamp_millis s h
  refine ⟨⟨e, by rw [he]⟩, by rw [he], by rw [he], ?_, (fetch_events_no_append s).2⟩
  rw [he]
  exact (fetch_events_no_append s).1

theorem new_precondition_aborts_before_append_witness :
    ((0 : Nat) = 0 ∨ (none : Option ℚ) = some 0) ∧
      ((∃ e, (Invoice.new "test" 0 none none 0 none).2.2 = Except.error e) ∧
        (Invoice.new "test" 0 none none 0 none).1 = (fetch_invoices none).1 ∧
        (Invoice.new "test" 0 none none 0 none).2.1 = (fetch_invoices none).2.1 ∧
        LedgerEvent.appendWrite ∉ (Invoice.new "test" 0 none none 0 none).2.1 ∧
        (fetch_invoices (none : LedgerState)).2.1 ≠ []) :=
  ⟨Or.inl rfl,
    new_precondition_aborts_before_append "test" 0 none none 0 none (Or.inl rfl)⟩

/-- C5: `calc_government_tax` returns the pair (R, T) where T is the sum of
amount × rate over the allocations, and R is accumulated by adding, at each
step, the amount minus the running cumulative tax total (not the per-step
tax). -/
theorem calc_government_tax_matches_spec (l : List (ℚ × ℚ)) :
    calc_government_tax l = (remainderSpec l, runningTaxTotal l) := by
  rw [calc_government_tax, gov_foldl l 0 0, remainderSpec]
  simp

/-- C6: `calc_social_contribution` returns, for every remainder r, the pair
(netProfit, socialContributionTax) with socialContributionTax = r × 0.205 and
netProfit = r − socialContributionTax; at 1000 it returns (795, 205). -/
theorem calc_social_contribution_spec :
    (∀ r : ℚ, calc_social_contribution r = (r - r * 0.205, r * 0.205)) ∧
      calc_social_contribution 1000 = (795, 205) := by
  refine ⟨fun r => rfl, by norm_num [calc_social_contribution]⟩

/-- C7 is false as stated: at priorCumulativeProfit = 0, newProfit = 0 the
allocator returns the singleton [(0, 0.25)], a zero-amount allocation, not the
empty sequence. -/
theorem alloc_zero_profit_counterexample :
    appliable_tax_buckets 0 0 = [(0, 0.25)] ∧ appliable_tax_buckets 0 0 ≠ [] := by
  have h : appliable_tax_buckets 0 0 = [(0, 0.25)] := by
    norm_num [appliable_tax_buckets, appliable_go, tax_buckets]
  refine ⟨h, by rw [h]; simp⟩

/-- C7 (amended): when newProfit = 0 the allocator returns, for every
priorCumulativeProfit ≥ 0, a non-empty sequence all of whose allocations have
amount 0 (zero-amount allocations ARE emitted). -/
theorem alloc_zero_profit_all_amounts_zero (total_gross_profit : ℚ)
    (h : 0 ≤ total_gross_profit) :
    appliable_tax_buckets total_gross_profit 0 ≠ [] ∧
      ∀ x ∈ appliable_tax_buckets total_gross_profit 0, x.1 = 0 := by
  constructor
  · obtain ⟨init, last, hl⟩ :=
      appliable_go_concat total_gross_profit (total_gross_profit + 0) tax_buckets 0
        tax_buckets_unbounded
    rw [appliable_tax_buckets, hl]
    simp
  · intro x hx
    simp only [appliable_tax_buckets] at hx
    exact appliable_go_zero total_gross_profit (total_gross_profit + 0)
      (add_zero total_gross_profit) tax_buckets 0 rfl x hx

theorem alloc_zero_profit_all_amounts_zero_witness :
    (0 : ℚ) ≤ 0 ∧ (appliable_tax_buckets 0 0 ≠ [] ∧
      ∀ x ∈ appliable_tax_buckets 0 0, x.1 = 0) :=
  ⟨by norm_num, alloc_zero_profit_all_amounts_zero 0 (by norm_num)⟩

/-- C8: for priorCumulativeProfit ≥ 0 and newProfit > 0 with
priorCumulativeProfit + newProfit < 13870, the allocator returns exactly one
allocation, of amount newProfit at the first bracket's rate 0.25. -/
theorem alloc_below_first_bracket (total_gross_profit gross_profit : ℚ)
    (h1 : 0 ≤ total_gross_profit) (h2 : 0 < gross_profit)
    (h3 : total_gross_profit + gross_profit < 13870) :
    appliable_tax_buckets total_gross_profit gross_profit
      = [(gross_profit, 0.25)] := by
  have h0 : ¬ (total_gross_profit > (13870 : ℚ)) := by linarith
  simp only [appliable_tax_buckets, tax_buckets, appliable_go]
  rw [if_neg h0, if_pos h3]

theorem alloc_below_first_bracket_witness :
    (0 : ℚ) ≤ 0 ∧ (0 : ℚ) < 100 ∧ (0 : ℚ) + 100 < 13870 ∧
      appliable_tax_buckets 0 100 = [(100, 0.25)] :=
  ⟨by norm_num, by norm_num, by norm_num,
    alloc_below_first_bracket 0 100 (by norm_num) (by norm_num) (by norm_num)⟩

/-- C9: if the new invoice's name equals the name of an invoice already in the
year's ledger, `Invoice::new` fails with the duplicate-name precondition
violation and leaves the ledger's data rows unchanged (nothing is appended;
the only file event is the read performed by `fetch_invoices`). -/
theorem new_duplicate_name_no_append (name : String) (days_worked : Nat)
    (daily_rate : Option ℚ) (currency : Option String) (timestamp_millis : Nat)
    (rows : List Invoice) (h : ∃ invoice ∈ rows, invoice.name = name) :
    Invoice.new name days_worked daily_rate currency timestamp_millis (some rows)
      = (some rows, [LedgerEvent.openRead], Except.error NewError.duplicateName) := by
  have hdup : (rows.any fun invoice => invoice.name == name) = true := by
    rcases h with ⟨invoice, hm, hn⟩
    exact List.any_eq_true.mpr ⟨invoice, hm, by simp [hn]⟩
  simp [Invoice.new, fetch_invoices, hdup]

theorem new_duplicate_name_no_append_witness :
    (∃ invoice ∈ [sampleInvoice], invoice.name = "acme") ∧
      Invoice.new "acme" 3 none none 0 (some [sampleInvoice])
        = (some [sampleInvoice], [LedgerEvent.openRead],
            Except.error NewError.duplicateName) :=
  ⟨⟨sampleInvoice, by simp, rfl⟩,
    new_duplicate_name_no_append "acme" 3 none none 0 [sampleInvoice]
      ⟨sampleInvoice, by simp, rfl⟩⟩

/-- C10: for all inputs (newProfit = 0 and negative values included) the
allocator terminates (it is a total function by construction) with a
non-empty sequence of at most 4 allocations, and when the walk reaches the
unbounded final bracket — observable as the last allocation carrying that
bracket's rate 0.5 — the amount placed there is newProfit minus the sum of
the amounts emitted in the earlier brackets. -/
theorem alloc_shape (total_gross_profit gross_profit : ℚ) :
    ∃ init last,
      appliable_tax_buckets total_gross_profit gross_profit = init ++ [last] ∧
        (appliable_tax_buckets total_gross_profit gross_profit).length ≤ 4 ∧
        (last.2 = 0.5 → last.1 = gross_profit - (init.map Prod.fst).sum) := by
  obtain ⟨init, last, hl⟩ :=
    appliable_go_concat total_gross_profit (total_gross_profit + gross_profit)
      tax_buckets gross_profit tax_buckets_unbounded
  refine ⟨init, last, hl, ?_, ?_⟩
  · have hlen := appliable_go_length total_gross_profit
      (total_gross_profit + gross_profit) tax_buckets gross_profit
    simpa [appliable_tax_buckets, tax_buckets] using hlen
  · intro _
    have hs := appliable_sum total_gross_profit gross_profit
    rw [show appliable_tax_buckets total_gross_profit gross_profit = init ++ [last]
      from hl] at hs
    simp only [List.map_append, List.sum_append, List.map_cons, List.sum_cons,
      List.map_nil, List.sum_nil, add_zero] at hs
    linarith

theorem alloc_shape_witness :
    ∃ init last, appliable_tax_buckets 50000 100 = init ++ [last] ∧
      (appliable_tax_buckets 50000 100).length ≤ 4 ∧
      (last.2 = 0.5 → last.1 = 100 - (init.map Prod.fst).sum) :=
  alloc_shape 50000 100

end Accountant
